import Mathlib

deriving instance DecidableEq for Except

set_option maxRecDepth 40000

/-!
Shallow embedding of the dungeon-crawler leaderboard backend:
the submit handler (src/unnamed/part_000) and the leaderboard query
handler (src/api/leaderboard.js).

Modelling conventions:
* JavaScript numbers are modelled as exact rationals (`ℚ`); every
  arithmetic operation performed by the code stays well below 2^53, so
  double-precision floats behave exactly like rationals on them.
* `parseInt` / `parseFloat` return `Option Int` / `Option ℚ`, with `none`
  standing for `NaN`.  Their string semantics (leading whitespace, sign,
  `0x` prefix for `parseInt`, longest numeric prefix, trailing garbage
  ignored) are modelled; the non-finite literal "Infinity" accepted by
  `parseFloat` is not.
* Strings are Lean `String`s; `charCodeAt` is `Char.toNat`, which agrees
  with UTF-16 code units on the Basic Multilingual Plane (sanitized names
  only ever contain such characters).
* The Redis store is modelled per request: the two rate-limit counters of
  the requesting client identity (`rl:<ip>` and `dl:<ip>`), the run-record
  hash map, the global leaderboard sorted set (kept as a descending list)
  and the per-player sorted sets.  Counter expiry is modelled with absolute
  expiry instants against an explicit `now` parameter.
-/

namespace DCC

section
attribute [local semireducible] Rat.mul Rat.inv Rat.add Rat.sub Rat.ofScientific

/-- A JavaScript value as it may appear in a submitted JSON body field:
a string, a (finite) number, or `undefined`/absent. -/
inductive JSVal where
  | str (s : String)
  | num (q : ℚ)
  | undef
deriving DecidableEq

/-- The whitespace class JS `parseInt`/`parseFloat`/`trim` and the regex
class `\s` agree on for the characters that can actually appear here
(ASCII whitespace plus NBSP and BOM). -/
def isSpaceJS (c : Char) : Bool :=
  c = ' ' ∨ c = '\t' ∨ c = '\n' ∨ c = '\x0b' ∨ c = '\x0c' ∨ c = '\r' ∨
  c = ' ' ∨ c = '﻿'

/-- Value of a hexadecimal digit character. -/
def hexVal (c : Char) : Nat :=
  if c.isDigit then c.toNat - 48
  else if 'a' ≤ c ∧ c ≤ 'f' then c.toNat - 87
  else c.toNat - 55

def isHexDigitJS (c : Char) : Bool :=
  c.isDigit ∨ ('a' ≤ c ∧ c ≤ 'f') ∨ ('A' ≤ c ∧ c ≤ 'F')

/-- Accumulate a digit list in the given base. -/
def digitsToNat (base : Nat) (l : List Char) : Nat :=
  l.foldl (fun a c => a * base + hexVal c) 0

/-- Split an optional leading `+`/`-` sign. -/
def splitSign (l : List Char) : Int × List Char :=
  match l with
  | '-' :: r => (-1, r)
  | '+' :: r => (1, r)
  | _ => (1, l)

/-- JS `parseInt(s)` (no radix argument): skip leading whitespace, optional
sign, hexadecimal when prefixed `0x`/`0X`, otherwise decimal; the longest
digit prefix is taken and trailing garbage ignored; no digits means `NaN`
(`none`). -/
def parseIntStr (s : String) : Option Int :=
  let l := s.data.dropWhile isSpaceJS
  let sl := splitSign l
  match sl.2 with
  | '0' :: x :: r =>
    if x = 'x' ∨ x = 'X' then
      let ds := (r.span isHexDigitJS).1
      if ds = [] then none else some (sl.1 * digitsToNat 16 ds)
    else
      let ds := (sl.2.span Char.isDigit).1
      if ds = [] then none else some (sl.1 * digitsToNat 10 ds)
  | _ =>
    let ds := (sl.2.span Char.isDigit).1
    if ds = [] then none else some (sl.1 * digitsToNat 10 ds)

/-- JS `parseFloat(s)`: skip leading whitespace, optional sign, decimal
digits with optional fraction and optional exponent; the longest valid
numeric prefix is taken; no digits at all means `NaN` (`none`). -/
def parseFloatStr (s : String) : Option ℚ :=
  let l := s.data.dropWhile isSpaceJS
  let sl := splitSign l
  let ip := sl.2.span Char.isDigit
  let fp :=
    match ip.2 with
    | '.' :: r => r.span Char.isDigit
    | _ => ([], ip.2)
  if ip.1 = [] ∧ fp.1 = [] then none
  else
    let mantissa : ℚ :=
      (sl.1 : ℚ) * ((digitsToNat 10 ip.1 : ℚ) +
        (digitsToNat 10 fp.1 : ℚ) / (10 : ℚ) ^ fp.1.length)
    let expVal : Int :=
      match fp.2 with
      | e :: r =>
        if e = 'e' ∨ e = 'E' then
          let es := splitSign r
          let eds := (es.2.span Char.isDigit).1
          if eds = [] then 0 else es.1 * digitsToNat 10 eds
        else 0
      | [] => 0
    some (mantissa * (10 : ℚ) ^ expVal)

/-- Truncation of a rational toward zero, the value JS `parseInt` produces
on a number argument rendered in plain decimal form. -/
def ratTrunc (q : ℚ) : Int := q.num.tdiv q.den

/-- `parseInt(v)` on a JSON body value. -/
def parseIntJS : JSVal → Option Int
  | .str s => parseIntStr s
  | .num q => some (ratTrunc q)
  | .undef => none

/-- `parseFloat(v)` on a JSON body value. -/
def parseFloatJS : JSVal → Option ℚ
  | .str s => parseFloatStr s
  | .num q => some q
  | .undef => none

/-- Drop characters up to and including the first `>`; `none` when there is
no `>` (so the regex `<[^>]*>` has no match starting at the dropped `<`). -/
def dropThroughGt : List Char → Option (List Char)
  | [] => none
  | c :: r => if c = '>' then some r else dropThroughGt r

/-- Worker for `stripTags`, structurally recursive on a fuel bound that
dominates the list length (`dropThroughGt` always returns a strict suffix,
so the fuel never runs out on the calls made by `stripTags`). -/
def stripTagsFuel : Nat → List Char → List Char
  | 0, l => l
  | _ + 1, [] => []
  | fuel + 1, c :: rest =>
    if c = '<' then
      match dropThroughGt rest with
      | some rest2 => stripTagsFuel fuel rest2
      | none => c :: stripTagsFuel fuel rest
    else c :: stripTagsFuel fuel rest

/-- `s.replace(/<[^>]*>/g, '')`: remove every angle-bracket-delimited
substring, scanning left to right. -/
def stripTags (l : List Char) : List Char := stripTagsFuel l.length l

/-- The JS regex class `\w` (no `u` flag): ASCII letters, digits, underscore. -/
def isWordCharJS (c : Char) : Bool :=
  ('a' ≤ c ∧ c ≤ 'z') ∨ ('A' ≤ c ∧ c ≤ 'Z') ∨ ('0' ≤ c ∧ c ≤ '9') ∨ c = '_'

/-- A character kept by `replace(/[^\w\s\-_.!]/g, '')`. -/
def allowedChar (c : Char) : Bool :=
  isWordCharJS c ∨ isSpaceJS c ∨ c = '-' ∨ c = '.' ∨ c = '!'

/-- JS `String.prototype.trim` on a character list. -/
def trimJS (l : List Char) : List Char :=
  ((l.dropWhile isSpaceJS).reverse.dropWhile isSpaceJS).reverse

/-- `sanitizeName` on an actual string: strip HTML tags, strip characters
outside `\w\s\-_.!`, trim; empty result when fewer than 2 characters
remain, truncation to 16 characters otherwise. -/
def sanitizeStr (s : String) : String :=
  let clean := trimJS ((stripTags s.data).filter allowedChar)
  if clean.length < 2 then "" else String.mk (clean.take 16)

/-- `sanitizeName(name)`: non-string input yields `''`. -/
def sanitizeName : JSVal → String
  | .str s => sanitizeStr s
  | _ => ""

/-- `VALID_CLASSES`. -/
def validClasses : List String :=
  ["pugilist", "berserker", "elementalist", "trapper", "beastmaster",
   "necromancer"]

/-- `VALID_RACES`. -/
def validRaces : List String := ["human", "primal", "halfElf", "goblin"]

/-- One step of the djb2 loop, on the unsigned 32-bit representative:
`hash = ((hash << 5) + hash) + charCode; hash = hash & hash` keeps the
value congruent to this mod 2^32 (signed `ToInt32` and unsigned residue
agree modulo 2^32). -/
def djb2Step (h : Nat) (c : Char) : Nat :=
  ((h <<< 5) % 2 ^ 32 + h + c.toNat) % 2 ^ 32

/-- `(hash >>> 0).toString(16)`: lowercase hexadecimal rendering. -/
def toHexStr (n : Nat) : String := String.mk (Nat.toDigits 16 n)

/-- `computeChecksum`: djb2 hash (seed 5381) of the `'|'`-joined validated
fields and the shared secret, rendered as unsigned 32-bit hex. -/
def computeChecksum (name : String) (floor kills level : Int) (time : ℚ)
    (bossKills bbEarned viewers : Int) (classId raceId : String) : String :=
  let secret := "dcc_survivors_2024"
  let str := String.intercalate "|"
    [name, toString floor, toString kills, toString level,
     toString (Rat.floor time), toString bossKills, toString bbEarned,
     toString viewers, classId, raceId, secret]
  toHexStr (str.data.foldl djb2Step 5381)

/-- The `data` object passed to `computeScore`. -/
structure ScoreData where
  floor : Int
  kills : Int
  level : Int
  time : ℚ
  bossKills : Int
  viewers : Int
  victory : Bool
deriving DecidableEq

/-- `computeScore`: the server-side composite score. -/
def computeScore (data : ScoreData) : Int :=
  data.floor * 1000 + data.bossKills * 500 + data.kills * 2
    + data.level * 50 + Rat.floor ((data.viewers : ℚ) / 100)
    + (if data.victory then 5000 else 0)
    - Rat.floor (data.time / 10)

/-- The raw request body of a submission.  `classId`, `raceId` and
`checksum` model the results of the source's `String(x || '')` coercions,
and `victory` the result of `!!body.victory`; the body's `score` field, if
any, is never read by the handler and hence not represented. -/
structure Body where
  name : JSVal
  floor : JSVal
  kills : JSVal
  level : JSVal
  time : JSVal
  bossKills : JSVal
  bbEarned : JSVal
  viewers : JSVal
  classId : String
  raceId : String
  victory : Bool
  checksum : String
deriving DecidableEq

/-- The normalized, fully-typed submission produced by validation. -/
structure Validated where
  name : String
  floor : Int
  kills : Int
  level : Int
  time : ℚ
  bossKills : Int
  bbEarned : Int
  viewers : Int
  classId : String
  raceId : String
  victory : Bool
deriving DecidableEq

/-- `isNaN(n) || n < lo || n > hi` on a `parseInt` result, yielding the
value or the field's error message. -/
def reqInt (v : JSVal) (lo hi : Int) (msg : String) : Except String Int :=
  match parseIntJS v with
  | none => .error msg
  | some n => if n < lo ∨ n > hi then .error msg else .ok n

/-- `isNaN(n) || n < lo` on a `parseInt` result. -/
def reqIntMin (v : JSVal) (lo : Int) (msg : String) : Except String Int :=
  match parseIntJS v with
  | none => .error msg
  | some n => if n < lo then .error msg else .ok n

/-- `isNaN(t) || t < lo` on a `parseFloat` result. -/
def reqFloatMin (v : JSVal) (lo : ℚ) (msg : String) : Except String ℚ :=
  match parseFloatJS v with
  | none => .error msg
  | some t => if t < lo then .error msg else .ok t

/-- The field-validation block of the submit handler (name through victory
claim).  The source parses every field before running the checks; parsing
is pure, so folding each parse into its check is equivalent.  The checks
run in the source's order and the first failure wins. -/
def validateFields (b : Body) : Except String Validated :=
  let name := sanitizeName b.name
  if name = "" then .error "Invalid name (2-16 characters required)" else
  (reqInt b.floor 1 9 "Invalid floor (1-9)").bind fun floor =>
  (reqInt b.kills 0 5000 "Invalid kills").bind fun kills =>
  (reqInt b.level 1 60 "Invalid level").bind fun level =>
  (reqFloatMin b.time 20 "Invalid time").bind fun time =>
  (reqInt b.bossKills 0 floor "Invalid boss kills").bind fun bossKills =>
  (reqIntMin b.bbEarned 0 "Invalid BB earned").bind fun bbEarned =>
  (reqIntMin b.viewers 0 "Invalid viewers").bind fun viewers =>
  if b.classId ∉ validClasses then .error "Invalid class" else
  if b.raceId ∉ validRaces then .error "Invalid race" else
  if b.victory ∧ (floor < 9 ∨ bossKills < 9) then
    .error "Invalid victory claim"
  else
    .ok { name, floor, kills, level, time, bossKills, bbEarned, viewers,
          classId := b.classId, raceId := b.raceId, victory := b.victory }

/-- A persisted run record (`run:<id>` hash).  The hash fields round-trip
through the store's string serialization exactly, so they are kept typed;
`time` holds `Math.round(time)`.  The record's 90-day store expiry is not
represented (no claim concerns it). -/
structure RunRecord where
  id : String
  name : String
  score : Int
  floor : Int
  kills : Int
  level : Int
  time : Int
  bossKills : Int
  bbEarned : Int
  viewers : Int
  classId : String
  raceId : String
  victory : Bool
  timestamp : Nat
deriving DecidableEq

/-- The store state a request touches: the requesting client identity's
two rate counters (value and absolute expiry instant, `none` when the key
is absent or expired away), the run-record map, the global leaderboard
sorted set as a descending `(member, score)` list, and the per-player
sorted sets.  A single abstract clock serves both counter expiry and
timestamps. -/
structure Store where
  burst : Option (Nat × Nat)
  daily : Option (Nat × Nat)
  runs : List (String × RunRecord)
  global : List (String × Int)
  players : List (String × List (String × Int))
deriving DecidableEq

/-- Redis `INCR` followed by `EXPIRE ttl` when the result is 1: an absent
or expired key restarts at 1 with a fresh expiry; a live key increments
and keeps its expiry. -/
def incrCounter (c : Option (Nat × Nat)) (now ttl : Nat) :
    Nat × Option (Nat × Nat) :=
  match c with
  | none => (1, some (1, now + ttl))
  | some (v, e) =>
    if e ≤ now then (1, some (1, now + ttl))
    else (v + 1, some (v + 1, e))

/-- Insert a member into a descending `(member, score)` list, before the
first strictly smaller score (Redis breaks score ties by member order; no
claim depends on tie order). -/
def insertDesc : List (String × Int) → Int → String → List (String × Int)
  | [], s, m => [(m, s)]
  | (m0, s0) :: rest, s, m =>
    if s0 < s then (m, s) :: (m0, s0) :: rest
    else (m0, s0) :: insertDesc rest s m

/-- Redis `ZADD`: replaces the member's previous entry if present. -/
def zaddDesc (l : List (String × Int)) (score : Int) (member : String) :
    List (String × Int) :=
  insertDesc (l.filter fun p => p.1 ≠ member) score member

/-- Redis `ZREVRANK` on a descending list: the member's 0-based position. -/
def zrevrank (l : List (String × Int)) (member : String) : Option Nat :=
  l.findIdx? fun p => p.1 = member

/-- The sorted set stored under `player:<key>` (empty when absent). -/
def getPlayer (players : List (String × List (String × Int)))
    (k : String) : List (String × Int) :=
  ((players.find? fun p => p.1 = k).map Prod.snd).getD []

/-- Store back a player's sorted set. -/
def setPlayer (players : List (String × List (String × Int)))
    (k : String) (v : List (String × Int)) :
    List (String × List (String × Int)) :=
  (k, v) :: players.filter fun p => p.1 ≠ k

/-- `name.toLowerCase().trim()`.  Lower-casing is applied per character
(`Char.toLower`), which coincides with JS `toLowerCase` on the
ASCII-only names sanitization produces. -/
def normalizeName (n : String) : String :=
  String.mk (trimJS (n.data.map Char.toLower))

/-- A submit-endpoint response: an error with its HTTP status, or the
success payload `{id, score, rank}`. -/
inductive Resp where
  | err (status : Nat) (msg : String)
  | success (id : String) (score : Int) (rank : Option Nat)
deriving DecidableEq

def Resp.status : Resp → Nat
  | .err s _ => s
  | .success _ _ _ => 200

/-- The POST submit handler (src/unnamed/part_000, lines 54-169), for a
single request of the modelled client identity: rate limiting, body
presence, field validation, checksum verification, score computation,
record write, the two ranking inserts, and the rank read-back.  `newId`
stands for the generated `crypto.randomUUID()` and `now` for the request
instant. -/
def submitHandler (st : Store) (now : Nat) (newId : String)
    (body : Option Body) : Resp × Store :=
  let bi := incrCounter st.burst now 30
  let st1 : Store := { st with burst := bi.2 }
  if bi.1 > 2 then
    (.err 429 "Too many submissions. Wait 30 seconds.", st1)
  else
  let di := incrCounter st1.daily now 86400
  let st2 : Store := { st1 with daily := di.2 }
  if di.1 > 20 then (.err 429 "Daily submission limit reached.", st2)
  else
  match body with
  | none => (.err 400 "Missing request body", st2)
  | some b =>
    match validateFields b with
    | .error msg => (.err 400 msg, st2)
    | .ok v =>
      let expected := computeChecksum v.name v.floor v.kills v.level v.time
        v.bossKills v.bbEarned v.viewers v.classId v.raceId
      if b.checksum ≠ expected then (.err 400 "Invalid checksum", st2)
      else
        let score := computeScore
          { floor := v.floor, kills := v.kills, level := v.level,
            time := v.time, bossKills := v.bossKills, viewers := v.viewers,
            victory := v.victory }
        let record : RunRecord :=
          { id := newId, name := v.name, score := score, floor := v.floor,
            kills := v.kills, level := v.level,
            time := Rat.floor (v.time + 1 / 2), bossKills := v.bossKills,
            bbEarned := v.bbEarned, viewers := v.viewers,
            classId := v.classId, raceId := v.raceId, victory := v.victory,
            timestamp := now }
        let nm := normalizeName v.name
        let st3 : Store :=
          { st2 with
            runs := (newId, record) :: st2.runs,
            global := zaddDesc st2.global score newId,
            players := setPlayer st2.players nm
              (zaddDesc (getPlayer st2.players nm) score newId) }
        let rank := zrevrank st3.global newId
        (.success newId score (rank.map (· + 1)), st3)

/-- A hydrated leaderboard entry. -/
structure Entry where
  rank : Nat
  id : String
  name : String
  score : Int
  floor : Int
  kills : Int
  level : Int
  time : ℚ
  bossKills : Int
  bbEarned : Int
  viewers : Int
  classId : String
  raceId : String
  victory : Bool
  timestamp : Nat
deriving DecidableEq

def entryOfRecord (rank : Nat) (id : String) (r : RunRecord) : Entry :=
  { rank, id, name := r.name, score := r.score, floor := r.floor,
    kills := r.kills, level := r.level, time := (r.time : ℚ),
    bossKills := r.bossKills, bbEarned := r.bbEarned, viewers := r.viewers,
    classId := r.classId, raceId := r.raceId, victory := r.victory,
    timestamp := r.timestamp }

/-- The hydration loop of the leaderboard handler: for each ranked member
(in order) look up its run record; records that are missing or have no
name are skipped; a pushed entry's rank is `entries.length + 1` at push
time.  `@upstash/redis` returns `{member, score}` objects with
`withScores`, the format modelled here; the source's extra tolerance for
the flat-array format is shape normalization with identical outcome. -/
def hydrateEntries (runs : List (String × RunRecord))
    (top : List (String × Int)) : List Entry :=
  top.foldl
    (fun acc p =>
      match runs.find? fun q => q.1 = p.1 with
      | some (_, r) =>
        if r.name ≠ "" then acc ++ [entryOfRecord (acc.length + 1) p.1 r]
        else acc
      | none => acc)
    []

/-- Redis `ZRANGE key 0 stop REV`: a negative `stop` counts from the end;
a still-negative resolved stop yields nothing. -/
def zrangeDescTake (l : List (String × Int)) (stop : Int) :
    List (String × Int) :=
  let n : Int := l.length
  let stop2 := if stop < 0 then n + stop else stop
  if stop2 < 0 then [] else l.take (stop2.toNat + 1)

/-- The personal-best payload. -/
structure PlayerBest where
  rank : Option Nat
  id : String
  name : String
  score : Int
  floor : Int
  kills : Int
  level : Int
  classId : String
  victory : Bool
deriving DecidableEq

/-- A leaderboard response `{entries, total, playerBest}`. -/
structure LBResp where
  entries : List Entry
  total : Nat
  playerBest : Option PlayerBest
deriving DecidableEq

/-- The GET leaderboard handler (src/api/leaderboard.js, lines 21-91).
`limitParam` and `playerParam` are the raw query parameters (absent or
strings). -/
def leaderboardHandler (st : Store) (limitParam : Option String)
    (playerParam : Option String) : LBResp :=
  let parsed :=
    match limitParam with
    | some s => parseIntStr s
    | none => none
  let limit : Int :=
    min (match parsed with
         | some v => if v = 0 then 50 else v
         | none => 50) 100
  let top := zrangeDescTake st.global (limit - 1)
  let entries := hydrateEntries st.runs top
  let playerName := playerParam.getD ""
  let playerBest :=
    if playerName = "" then none
    else
      let norm := normalizeName playerName
      match (getPlayer st.players norm).head? with
      | none => none
      | some (bestId, _) =>
        match st.runs.find? fun p => p.1 = bestId with
        | some (_, r) =>
          if r.name ≠ "" then
            some { rank := (zrevrank st.global bestId).map (· + 1),
                   id := bestId, name := r.name, score := r.score,
                   floor := r.floor, kills := r.kills, level := r.level,
                   classId := r.classId, victory := r.victory }
          else none
        | none => none
  { entries := entries, total := st.global.length, playerBest := playerBest }

/-- Whether a ranking member has a backing run record with a name (the
hydration loop's `data && data.name` test). -/
def backedB (runs : List (String × RunRecord)) (m : String) : Bool :=
  match runs.find? fun r => r.1 = m with
  | some q => decide (q.2.name ≠ "")
  | none => false

/-- Whether a ranking member's backing record (if any) carries the same
score as the ranking (the single-source-of-truth store invariant). -/
def recordScoreOkB (runs : List (String × RunRecord))
    (p : String × Int) : Bool :=
  match runs.find? fun r => r.1 = p.1 with
  | some q => decide (q.2.score = p.2)
  | none => true

/-- Recursive description of the hydration loop: `k` entries already
pushed, so the next pushed entry gets rank `k + 1`. -/
def hydrateFrom (runs : List (String × RunRecord)) :
    List (String × Int) → Nat → List Entry
  | [], _ => []
  | p :: rest, k =>
    match runs.find? fun q => q.1 = p.1 with
    | some (_, r) =>
      if r.name ≠ "" then
        entryOfRecord (k + 1) p.1 r :: hydrateFrom runs rest (k + 1)
      else hydrateFrom runs rest k
    | none => hydrateFrom runs rest k

/-! ### Specification-side description of the validation order (C4) -/

/-- Following the spec's words: an integer field check fails when the
parse fails (`NaN`) or the value is outside `[lo, hi]`. -/
def intFieldBad (v : JSVal) (lo hi : Int) : Bool :=
  match parseIntJS v with
  | none => true
  | some n => decide (n < lo ∨ n > hi)

/-- Following the spec's words: an integer field check with only a lower
bound. -/
def intFieldBadMin (v : JSVal) (lo : Int) : Bool :=
  match parseIntJS v with
  | none => true
  | some n => decide (n < lo)

/-- Following the spec's words: a real field check with a lower bound. -/
def floatFieldBadMin (v : JSVal) (lo : ℚ) : Bool :=
  match parseFloatJS v with
  | none => true
  | some t => decide (t < lo)

/-- Following the spec's words: bossKills must be an integer in
`[0, floor]` (failing whenever floor itself is unparsable, in which case
the earlier floor check fires first anyway). -/
def bossKillsBad (b : Body) : Bool :=
  match parseIntJS b.floor with
  | none => true
  | some floor => intFieldBad b.bossKills 0 floor

/-- Following the spec's words: a victory claim is only valid when
floor = 9 and bossKills ≥ 9. -/
def victoryBad (b : Body) : Bool :=
  b.victory &&
    (match parseIntJS b.floor, parseIntJS b.bossKills with
     | some floor, some bossKills => decide (floor < 9 ∨ bossKills < 9)
     | _, _ => true)

/-- Modelled from the spec: the eleven validation checks in their fixed
order — name, floor, kills, level, time, bossKills, bbEarned, viewers,
classId, raceId, victory — paired with each check's error message. -/
def specChecks (b : Body) : List (Bool × String) :=
  [(decide (sanitizeName b.name = ""),
    "Invalid name (2-16 characters required)"),
   (intFieldBad b.floor 1 9, "Invalid floor (1-9)"),
   (intFieldBad b.kills 0 5000, "Invalid kills"),
   (intFieldBad b.level 1 60, "Invalid level"),
   (floatFieldBadMin b.time 20, "Invalid time"),
   (bossKillsBad b, "Invalid boss kills"),
   (intFieldBadMin b.bbEarned 0, "Invalid BB earned"),
   (intFieldBadMin b.viewers 0, "Invalid viewers"),
   (decide (b.classId ∉ validClasses), "Invalid class"),
   (decide (b.raceId ∉ validRaces), "Invalid race"),
   (victoryBad b, "Invalid victory claim")]

/-- Modelled from the spec: the error of the first failing check (no
aggregation), `none` when every check passes. -/
def firstFailure (b : Body) : Option String :=
  ((specChecks b).find? fun p => p.1).map fun p => p.2

/-! ### Concrete data used by witnesses -/

/-- A submission that passes every check (its checksum is the djb2 hash of
`Bob|9|500|60|600|9|0|300|pugilist|human|dcc_survivors_2024`). -/
def exBody : Body :=
  { name := .str "Bob", floor := .num 9, kills := .num 500,
    level := .num 60, time := .num 600, bossKills := .num 9,
    bbEarned := .num 0, viewers := .num 300, classId := "pugilist",
    raceId := "human", victory := true, checksum := "f16a5593" }

/-- The validated form of `exBody`. -/
def exValidated : Validated :=
  { name := "Bob", floor := 9, kills := 500, level := 60, time := 600,
    bossKills := 9, bbEarned := 0, viewers := 300, classId := "pugilist",
    raceId := "human", victory := true }

/-- An empty store (no counters, no runs, no rankings). -/
def exStore : Store :=
  { burst := none, daily := none, runs := [], global := [], players := [] }

/-- `exBody` with an unparsable floor field. -/
def exBadFloorBody : Body := { exBody with floor := .str "abc" }

/-- A submission whose floor field is the non-numeric string "5abc"
(every other field valid, victory false). -/
def c8Body : Body :=
  { name := .str "Bob", floor := .str "5abc", kills := .num 100,
    level := .num 10, time := .num 60, bossKills := .num 2,
    bbEarned := .num 0, viewers := .num 0, classId := "pugilist",
    raceId := "human", victory := false, checksum := "" }

/-- What validation makes of `c8Body`: floor coerced to 5. -/
def c8Validated : Validated :=
  { name := "Bob", floor := 5, kills := 100, level := 10, time := 60,
    bossKills := 2, bbEarned := 0, viewers := 0, classId := "pugilist",
    raceId := "human", victory := false }

/-- A store whose burst counter is live at instant 1000 after two prior
submissions. -/
def burstStore : Store := { exStore with burst := some (2, 2000) }

/-- A store whose daily counter is live at instant 1000 after twenty
prior submissions. -/
def dailyStore : Store := { exStore with daily := some (20, 90000) }

/-- A backed run record for leaderboard witnesses. -/
def rec1 : RunRecord :=
  { id := "id1", name := "Bob", score := 300, floor := 3, kills := 10,
    level := 5, time := 60, bossKills := 1, bbEarned := 0, viewers := 0,
    classId := "pugilist", raceId := "human", victory := false,
    timestamp := 1000 }

def rec2 : RunRecord := { rec1 with id := "id2", score := 200 }

def rec3 : RunRecord := { rec1 with id := "id3", name := "Ann", score := 100 }

/-- A store with three backed, consistently scored, descending ranking
members, and a player ranking for "bob" holding two of them. -/
def lbStore : Store :=
  { burst := none, daily := none,
    runs := [("id1", rec1), ("id2", rec2), ("id3", rec3)],
    global := [("id1", 300), ("id2", 200), ("id3", 100)],
    players := [("bob", [("id1", 300), ("id2", 200)])] }

/-! ### Helper lemmas -/

theorem reqInt_error_eq {v : JSVal} {lo hi : Int} {msg e : String}
    (h : reqInt v lo hi msg = .error e) : e = msg := by
  unfold reqInt at h
  split at h
  · exact (Except.error.inj h).symm
  · split at h
    · exact (Except.error.inj h).symm
    · exact absurd h (by simp)

theorem reqInt_ok {v : JSVal} {lo hi : Int} {msg : String} {n : Int}
    (h : reqInt v lo hi msg = .ok n) :
    parseIntJS v = some n ∧ lo ≤ n ∧ n ≤ hi := by
  unfold reqInt at h
  split at h
  · exact absurd h (by simp)
  · rename_i m hm
    split at h
    · exact absurd h (by simp)
    · rename_i hrange
      cases h
      push_neg at hrange
      exact ⟨hm, hrange.1, hrange.2⟩

theorem reqIntMin_ok {v : JSVal} {lo : Int} {msg : String} {n : Int}
    (h : reqIntMin v lo msg = .ok n) :
    parseIntJS v = some n ∧ lo ≤ n := by
  unfold reqIntMin at h
  split at h
  · exact absurd h (by simp)
  · rename_i m hm
    split at h
    · exact absurd h (by simp)
    · rename_i hrange
      cases h
      exact ⟨hm, not_lt.mp hrange⟩

theorem reqFloatMin_ok {v : JSVal} {lo : ℚ} {msg : String} {t : ℚ}
    (h : reqFloatMin v lo msg = .ok t) :
    parseFloatJS v = some t ∧ lo ≤ t := by
  unfold reqFloatMin at h
  split at h
  · exact absurd h (by simp)
  · rename_i q hq
    split at h
    · exact absurd h (by simp)
    · rename_i hrange
      cases h
      exact ⟨hq, not_lt.mp hrange⟩

/-! ### Claims -/

/-- C1.  For every validated submission that the handler accepts, the
persisted run record's score is
`floor*1000 + bossKills*500 + kills*2 + level*50 + ⌊viewers/100⌋
 + (victory ? 5000 : 0) − ⌊time/10⌋`, computed with floor division and
independent of any client-supplied score (the handler never reads one);
and on floor=9, bossKills=9, kills=500, level=60, viewers=300, time=600,
victory=true the score is exactly 22443. -/
theorem persisted_score_matches_formula :
    (∀ (st : Store) (now : Nat) (newId : String) (b : Body)
       (id : String) (sc : Int) (rk : Option Nat) (v : Validated),
       validateFields b = .ok v →
       (submitHandler st now newId (some b)).1 = .success id sc rk →
       ∃ r : RunRecord,
         ((submitHandler st now newId (some b)).2.runs.find?
           fun p => p.1 = id) = some (id, r) ∧
         r.score = v.floor * 1000 + v.bossKills * 500 + v.kills * 2 +
           v.level * 50 + Rat.floor ((v.viewers : ℚ) / 100) +
           (if v.victory then (5000 : Int) else 0) -
           Rat.floor (v.time / 10)) ∧
    computeScore
      { floor := 9, kills := 500, level := 60, time := 600,
        bossKills := 9, viewers := 300, victory := true } = 22443 := by
  constructor
  · intro st now newId b id sc rk v hval h1
    simp only [submitHandler, hval] at h1 ⊢
    split at h1
    · simp at h1
    · rename_i hb
      split at h1
      · simp at h1
      · rename_i hd
        split at h1
        · simp at h1
        · rename_i hck
          rw [if_neg hb, if_neg hd, if_neg hck]
          simp only [Resp.success.injEq] at h1
          obtain ⟨hid, hsc, hrk⟩ := h1
          subst hid
          refine ⟨_, List.find?_cons_of_pos _ (by simp), ?_⟩
          simp [computeScore]
  · decide

/-- Witness for C1 at the concrete example submission. -/
theorem persisted_score_matches_formula_witness :
    validateFields exBody = .ok exValidated ∧
    (submitHandler exStore 1000 "id1" (some exBody)).1 =
      .success "id1" 22443 (some 1) ∧
    ∃ r : RunRecord,
      ((submitHandler exStore 1000 "id1" (some exBody)).2.runs.find?
        fun p => p.1 = "id1") = some ("id1", r) ∧
      r.score = exValidated.floor * 1000 + exValidated.bossKills * 500 +
        exValidated.kills * 2 + exValidated.level * 50 +
        Rat.floor ((exValidated.viewers : ℚ) / 100) +
        (if exValidated.victory then (5000 : Int) else 0) -
        Rat.floor (exValidated.time / 10) :=
  ⟨by decide, by decide,
   persisted_score_matches_formula.1 exStore 1000 "id1" exBody "id1" 22443
     (some 1) exValidated (by decide) (by decide)⟩

/-- C2.  For every submission that passes field validation (and is not
rate-limited), the request is rejected with the checksum error exactly
when the client-supplied checksum differs from the recomputed hash over
the sanitized fields; the hash is djb2: seed 5381, per-character step
`hash * 33 + charCode` reduced mod 2^32 (the 32-bit signed truncation of
the source agrees with the unsigned residue), rendered as unsigned 32-bit
hexadecimal over the `'|'`-joined fields and secret. -/
theorem checksum_gate_iff_mismatch :
    (∀ (st : Store) (now : Nat) (newId : String) (b : Body) (v : Validated),
       (incrCounter st.burst now 30).1 ≤ 2 →
       (incrCounter st.daily now 86400).1 ≤ 20 →
       validateFields b = .ok v →
       ((submitHandler st now newId (some b)).1 =
           .err 400 "Invalid checksum" ↔
         b.checksum ≠ computeChecksum v.name v.floor v.kills v.level v.time
           v.bossKills v.bbEarned v.viewers v.classId v.raceId)) ∧
    (∀ (h : Nat) (c : Char), djb2Step h c = (h * 33 + c.toNat) % 2 ^ 32) ∧
    (∀ (name : String) (floor kills level : Int) (time : ℚ)
       (bossKills bbEarned viewers : Int) (classId raceId : String),
       computeChecksum name floor kills level time bossKills bbEarned
           viewers classId raceId =
         toHexStr ((String.intercalate "|"
           [name, toString floor, toString kills, toString level,
            toString (Rat.floor time), toString bossKills,
            toString bbEarned, toString viewers, classId, raceId,
            "dcc_survivors_2024"]).data.foldl
             (fun h c => (h * 33 + c.toNat) % 2 ^ 32) 5381)) := by
  have hstep : djb2Step = fun h c => (h * 33 + c.toNat) % 2 ^ 32 := by
    funext h c
    simp only [djb2Step, Nat.shiftLeft_eq]
    omega
  refine ⟨?_, fun h c => by rw [hstep], fun name floor kills level time
    bossKills bbEarned viewers classId raceId => by
      simp only [computeChecksum, hstep]⟩
  intro st now newId b v hb hd hval
  simp only [submitHandler, hval]
  rw [if_neg (by omega), if_neg (by omega)]
  by_cases hck : b.checksum = computeChecksum v.name v.floor v.kills v.level
    v.time v.bossKills v.bbEarned v.viewers v.classId v.raceId
  · rw [if_neg (not_not_intro hck)]
    simp [hck]
  · rw [if_pos hck]
    simp [hck]

/-- Witness for C2: the example submission with rate counters fresh; with
its correct checksum the mismatch-rejection equivalence is exercised. -/
theorem checksum_gate_iff_mismatch_witness :
    (incrCounter exStore.burst 1000 30).1 ≤ 2 ∧
    (incrCounter exStore.daily 1000 86400).1 ≤ 20 ∧
    validateFields exBody = .ok exValidated ∧
    ((submitHandler exStore 1000 "id1" (some exBody)).1 =
        .err 400 "Invalid checksum" ↔
      exBody.checksum ≠ computeChecksum exValidated.name exValidated.floor
        exValidated.kills exValidated.level exValidated.time
        exValidated.bossKills exValidated.bbEarned exValidated.viewers
        exValidated.classId exValidated.raceId) :=
  ⟨by decide, by decide, by decide,
   checksum_gate_iff_mismatch.1 exStore 1000 "id1" exBody exValidated
     (by decide) (by decide) (by decide)⟩

/-- C3.  For a submission whose other fields all pass validation:
with victory=true it reaches the checksum stage (validation succeeds) iff
floor = 9 and bossKills ≥ 9; any other combination is rejected as an
"Invalid victory claim" with HTTP 400; and with victory=false the victory
rule never rejects (validation succeeds outright). -/
theorem victory_claim_rule
    (st : Store) (now : Nat) (newId : String) (b : Body)
    (floor kills level : Int) (time : ℚ)
    (bossKills bbEarned viewers : Int)
    (hn : ¬sanitizeName b.name = "")
    (hf : reqInt b.floor 1 9 "Invalid floor (1-9)" = .ok floor)
    (hk : reqInt b.kills 0 5000 "Invalid kills" = .ok kills)
    (hl : reqInt b.level 1 60 "Invalid level" = .ok level)
    (ht : reqFloatMin b.time 20 "Invalid time" = .ok time)
    (hbk : reqInt b.bossKills 0 floor "Invalid boss kills" = .ok bossKills)
    (hbb : reqIntMin b.bbEarned 0 "Invalid BB earned" = .ok bbEarned)
    (hvw : reqIntMin b.viewers 0 "Invalid viewers" = .ok viewers)
    (hc : b.classId ∈ validClasses)
    (hr : b.raceId ∈ validRaces) :
    (b.victory = true →
      ((∃ v, validateFields b = .ok v) ↔ floor = 9 ∧ 9 ≤ bossKills)) ∧
    (b.victory = true → ¬(floor = 9 ∧ 9 ≤ bossKills) →
      validateFields b = .error "Invalid victory claim" ∧
      ((incrCounter st.burst now 30).1 ≤ 2 →
        (incrCounter st.daily now 86400).1 ≤ 20 →
        (submitHandler st now newId (some b)).1 =
          .err 400 "Invalid victory claim")) ∧
    (b.victory = false → ∃ v, validateFields b = .ok v) := by
  obtain ⟨-, hf1, hf9⟩ := reqInt_ok hf
  obtain ⟨-, hbk0, hbkf⟩ := reqInt_ok hbk
  have hveval : ∀ hvic : Bool, b.victory = hvic →
      validateFields b =
        if hvic = true ∧ (floor < 9 ∨ bossKills < 9) then
          .error "Invalid victory claim"
        else
          .ok { name := sanitizeName b.name, floor, kills, level, time,
                bossKills, bbEarned, viewers, classId := b.classId,
                raceId := b.raceId, victory := b.victory } := by
    intro hvic hv
    simp only [validateFields, if_neg hn, hf, hk, hl, ht, hbk, hbb, hvw,
      Except.bind, hv]
    rw [if_neg (not_not_intro hc), if_neg (not_not_intro hr)]
  refine ⟨?_, ?_, ?_⟩
  · intro hvic
    rw [hveval true hvic]
    by_cases hcond : floor < 9 ∨ bossKills < 9
    · rw [if_pos ⟨rfl, hcond⟩]
      constructor
      · rintro ⟨v, hv⟩; cases hv
      · intro hok; omega
    · rw [if_neg (by simpa using hcond)]
      constructor
      · intro _; omega
      · intro _; exact ⟨_, rfl⟩
  · intro hvic hcond
    have herr : validateFields b = .error "Invalid victory claim" := by
      rw [hveval true hvic, if_pos ⟨rfl, by omega⟩]
    refine ⟨herr, fun hb hd => ?_⟩
    simp only [submitHandler, herr]
    rw [if_neg (by omega), if_neg (by omega)]
  · intro hvic
    rw [hveval false hvic, if_neg (by simp)]
    exact ⟨_, rfl⟩

/-- In a state where validation yields a given error that matches the
spec-side first failing check, all three C4 properties hold. -/
theorem validateFields_spec_of_error (b : Body) (msg : String)
    (hv : validateFields b = .error msg)
    (hff : firstFailure b = some msg) :
    (∀ e, firstFailure b = some e → validateFields b = .error e) ∧
    (firstFailure b = none → ∃ v, validateFields b = .ok v) ∧
    (∀ fl bk, parseIntJS b.floor = some fl →
       parseIntJS b.bossKills = some bk → fl < bk →
       ∀ v, validateFields b ≠ .ok v) := by
  refine ⟨?_, ?_, ?_⟩
  · intro e he
    rw [hff] at he
    cases he
    exact hv
  · intro h
    rw [hff] at h
    cases h
  · intro fl bk _ _ _ v hok
    rw [hv] at hok
    cases hok

/-- C4.  Validation checks the fields in the fixed order name, floor,
kills, level, time, bossKills, bbEarned, viewers, classId, raceId,
victory; the error returned is that of the first failing check
(`firstFailure`, written from the spec's ordered check list) and errors
are never aggregated; in particular bossKills > floor is always
rejected. -/
theorem validation_order_first_failure (b : Body) :
    (∀ e, firstFailure b = some e → validateFields b = .error e) ∧
    (firstFailure b = none → ∃ v, validateFields b = .ok v) ∧
    (∀ fl bk, parseIntJS b.floor = some fl →
       parseIntJS b.bossKills = some bk → fl < bk →
       ∀ v, validateFields b ≠ .ok v) := by
  by_cases hn : sanitizeName b.name = ""
  · exact validateFields_spec_of_error b "Invalid name (2-16 characters required)"
      (by simp [validateFields, hn])
      (by simp [firstFailure, specChecks, List.find?, hn])
  rcases Option.eq_none_or_eq_some (parseIntJS b.floor) with hpf | ⟨floor, hpf⟩
  · exact validateFields_spec_of_error b "Invalid floor (1-9)"
      (by simp [validateFields, hn, reqInt, hpf, Except.bind])
      (by simp [firstFailure, specChecks, List.find?, intFieldBad, hn, hpf])
  by_cases hfr : floor < 1 ∨ floor > 9
  · exact validateFields_spec_of_error b "Invalid floor (1-9)"
      (by simp [validateFields, hn, reqInt, hpf, hfr, Except.bind])
      (by simp [firstFailure, specChecks, List.find?, intFieldBad, hn, hpf,
        hfr])
  rcases Option.eq_none_or_eq_some (parseIntJS b.kills) with hpk | ⟨kills, hpk⟩
  · exact validateFields_spec_of_error b "Invalid kills"
      (by simp [validateFields, hn, reqInt, hpf, hfr, hpk, Except.bind])
      (by simp [firstFailure, specChecks, List.find?, intFieldBad, hn, hpf,
        hfr, hpk])
  by_cases hkr : kills < 0 ∨ kills > 5000
  · exact validateFields_spec_of_error b "Invalid kills"
      (by simp [validateFields, hn, reqInt, hpf, hfr, hpk, hkr, Except.bind])
      (by simp [firstFailure, specChecks, List.find?, intFieldBad, hn, hpf,
        hfr, hpk, hkr])
  rcases Option.eq_none_or_eq_some (parseIntJS b.level) with hpl | ⟨level, hpl⟩
  · exact validateFields_spec_of_error b "Invalid level"
      (by simp [validateFields, hn, reqInt, hpf, hfr, hpk, hkr, hpl,
        Except.bind])
      (by simp [firstFailure, specChecks, List.find?, intFieldBad, hn, hpf,
        hfr, hpk, hkr, hpl])
  by_cases hlr : level < 1 ∨ level > 60
  · exact validateFields_spec_of_error b "Invalid level"
      (by simp [validateFields, hn, reqInt, hpf, hfr, hpk, hkr, hpl, hlr,
        Except.bind])
      (by simp [firstFailure, specChecks, List.find?, intFieldBad, hn, hpf,
        hfr, hpk, hkr, hpl, hlr])
  rcases Option.eq_none_or_eq_some (parseFloatJS b.time) with hpt | ⟨time, hpt⟩
  · exact validateFields_spec_of_error b "Invalid time"
      (by simp [validateFields, hn, reqInt, reqFloatMin, hpf, hfr, hpk, hkr,
        hpl, hlr, hpt, Except.bind])
      (by simp [firstFailure, specChecks, List.find?, intFieldBad,
        floatFieldBadMin, hn, hpf, hfr, hpk, hkr, hpl, hlr, hpt])
  by_cases htr : time < 20
  · exact validateFields_spec_of_error b "Invalid time"
      (by simp [validateFields, hn, reqInt, reqFloatMin, hpf, hfr, hpk, hkr,
        hpl, hlr, hpt, htr, Except.bind])
      (by simp [firstFailure, specChecks, List.find?, intFieldBad,
        floatFieldBadMin, hn, hpf, hfr, hpk, hkr, hpl, hlr, hpt, htr])
  rcases Option.eq_none_or_eq_some (parseIntJS b.bossKills) with hpbk | ⟨bossKills, hpbk⟩
  · exact validateFields_spec_of_error b "Invalid boss kills"
      (by simp [validateFields, hn, reqInt, reqFloatMin, hpf, hfr, hpk, hkr,
        hpl, hlr, hpt, htr, hpbk, Except.bind])
      (by simp [firstFailure, specChecks, List.find?, intFieldBad,
        floatFieldBadMin, bossKillsBad, hn, hpf, hfr, hpk, hkr, hpl, hlr,
        hpt, htr, hpbk])
  by_cases hbkr : bossKills < 0 ∨ bossKills > floor
  · exact validateFields_spec_of_error b "Invalid boss kills"
      (by simp [validateFields, hn, reqInt, reqFloatMin, hpf, hfr, hpk, hkr,
        hpl, hlr, hpt, htr, hpbk, hbkr, Except.bind])
      (by simp [firstFailure, specChecks, List.find?, intFieldBad,
        floatFieldBadMin, bossKillsBad, hn, hpf, hfr, hpk, hkr, hpl, hlr,
        hpt, htr, hpbk, hbkr])
  rcases Option.eq_none_or_eq_some (parseIntJS b.bbEarned) with hpbb | ⟨bbEarned, hpbb⟩
  · exact validateFields_spec_of_error b "Invalid BB earned"
      (by simp [validateFields, hn, reqInt, reqIntMin, reqFloatMin, hpf, hfr,
        hpk, hkr, hpl, hlr, hpt, htr, hpbk, hbkr, hpbb, Except.bind])
      (by simp [firstFailure, specChecks, List.find?, intFieldBad,
        intFieldBadMin, floatFieldBadMin, bossKillsBad, hn, hpf, hfr, hpk,
        hkr, hpl, hlr, hpt, htr, hpbk, hbkr, hpbb])
  by_cases hbbr : bbEarned < 0
  · exact validateFields_spec_of_error b "Invalid BB earned"
      (by simp [validateFields, hn, reqInt, reqIntMin, reqFloatMin, hpf, hfr,
        hpk, hkr, hpl, hlr, hpt, htr, hpbk, hbkr, hpbb, hbbr, Except.bind])
      (by simp [firstFailure, specChecks, List.find?, intFieldBad,
        intFieldBadMin, floatFieldBadMin, bossKillsBad, hn, hpf, hfr, hpk,
        hkr, hpl, hlr, hpt, htr, hpbk, hbkr, hpbb, hbbr])
  rcases Option.eq_none_or_eq_some (parseIntJS b.viewers) with hpvw | ⟨viewers, hpvw⟩
  · exact validateFields_spec_of_error b "Invalid viewers"
      (by simp [validateFields, hn, reqInt, reqIntMin, reqFloatMin, hpf, hfr,
        hpk, hkr, hpl, hlr, hpt, htr, hpbk, hbkr, hpbb, hbbr, hpvw,
        Except.bind])
      (by simp [firstFailure, specChecks, List.find?, intFieldBad,
        intFieldBadMin, floatFieldBadMin, bossKillsBad, hn, hpf, hfr, hpk,
        hkr, hpl, hlr, hpt, htr, hpbk, hbkr, hpbb, hbbr, hpvw])
  by_cases hvwr : viewers < 0
  · exact validateFields_spec_of_error b "Invalid viewers"
      (by simp [validateFields, hn, reqInt, reqIntMin, reqFloatMin, hpf, hfr,
        hpk, hkr, hpl, hlr, hpt, htr, hpbk, hbkr, hpbb, hbbr, hpvw, hvwr,
        Except.bind])
      (by simp [firstFailure, specChecks, List.find?, intFieldBad,
        intFieldBadMin, floatFieldBadMin, bossKillsBad, hn, hpf, hfr, hpk,
        hkr, hpl, hlr, hpt, htr, hpbk, hbkr, hpbb, hbbr, hpvw, hvwr])
  by_cases hcls : b.classId ∈ validClasses
  swap
  · exact validateFields_spec_of_error b "Invalid class"
      (by simp [validateFields, hn, reqInt, reqIntMin, reqFloatMin, hpf, hfr,
        hpk, hkr, hpl, hlr, hpt, htr, hpbk, hbkr, hpbb, hbbr, hpvw, hvwr,
        hcls, Except.bind])
      (by simp [firstFailure, specChecks, List.find?, intFieldBad,
        intFieldBadMin, floatFieldBadMin, bossKillsBad, hn, hpf, hfr, hpk,
        hkr, hpl, hlr, hpt, htr, hpbk, hbkr, hpbb, hbbr, hpvw, hvwr, hcls])
  by_cases hrc : b.raceId ∈ validRaces
  swap
  · exact validateFields_spec_of_error b "Invalid race"
      (by simp [validateFields, hn, reqInt, reqIntMin, reqFloatMin, hpf, hfr,
        hpk, hkr, hpl, hlr, hpt, htr, hpbk, hbkr, hpbb, hbbr, hpvw, hvwr,
        hcls, hrc, Except.bind])
      (by simp [firstFailure, specChecks, List.find?, intFieldBad,
        intFieldBadMin, floatFieldBadMin, bossKillsBad, hn, hpf, hfr, hpk,
        hkr, hpl, hlr, hpt, htr, hpbk, hbkr, hpbb, hbbr, hpvw, hvwr, hcls,
        hrc])
  by_cases hvic : b.victory = true
  · by_cases hcond : floor < 9 ∨ bossKills < 9
    · exact validateFields_spec_of_error b "Invalid victory claim"
        (by simp [validateFields, hn, reqInt, reqIntMin, reqFloatMin, hpf,
          hfr, hpk, hkr, hpl, hlr, hpt, htr, hpbk, hbkr, hpbb, hbbr, hpvw,
          hvwr, hcls, hrc, hvic, hcond, Except.bind])
        (by simp [firstFailure, specChecks, List.find?, intFieldBad,
          intFieldBadMin, floatFieldBadMin, bossKillsBad, victoryBad, hn,
          hpf, hfr, hpk, hkr, hpl, hlr, hpt, htr, hpbk, hbkr, hpbb, hbbr,
          hpvw, hvwr, hcls, hrc, hvic, hcond])
    · have hok : validateFields b = .ok
          { name := sanitizeName b.name, floor := floor, kills := kills,
            level := level, time := time, bossKills := bossKills,
            bbEarned := bbEarned, viewers := viewers, classId := b.classId,
            raceId := b.raceId, victory := b.victory } := by
        simp [validateFields, hn, reqInt, reqIntMin, reqFloatMin, hpf, hfr,
          hpk, hkr, hpl, hlr, hpt, htr, hpbk, hbkr, hpbb, hbbr, hpvw, hvwr,
          hcls, hrc, hvic, hcond, Except.bind]
      have hv : ∃ v, validateFields b = .ok v := ⟨_, hok⟩
      have hff : firstFailure b = none := by
        simp [firstFailure, specChecks, List.find?, intFieldBad,
          intFieldBadMin, floatFieldBadMin, bossKillsBad, victoryBad, hn,
          hpf, hfr, hpk, hkr, hpl, hlr, hpt, htr, hpbk, hbkr, hpbb, hbbr,
          hpvw, hvwr, hcls, hrc, hvic, hcond]
      refine ⟨?_, fun _ => hv, ?_⟩
      · intro e he
        rw [hff] at he
        cases he
      · intro fl bk hpf2 hpbk2 hlt v hok
        rw [hpf] at hpf2
        cases hpf2
        rw [hpbk] at hpbk2
        cases hpbk2
        omega
  · have hok : validateFields b = .ok
        { name := sanitizeName b.name, floor := floor, kills := kills,
          level := level, time := time, bossKills := bossKills,
          bbEarned := bbEarned, viewers := viewers, classId := b.classId,
          raceId := b.raceId, victory := b.victory } := by
      simp [validateFields, hn, reqInt, reqIntMin, reqFloatMin, hpf, hfr,
        hpk, hkr, hpl, hlr, hpt, htr, hpbk, hbkr, hpbb, hbbr, hpvw, hvwr,
        hcls, hrc, hvic, Except.bind]
    have hv : ∃ v, validateFields b = .ok v := ⟨_, hok⟩
    have hff : firstFailure b = none := by
      simp [firstFailure, specChecks, List.find?, intFieldBad,
        intFieldBadMin, floatFieldBadMin, bossKillsBad, victoryBad, hn, hpf,
        hfr, hpk, hkr, hpl, hlr, hpt, htr, hpbk, hbkr, hpbb, hbbr, hpvw,
        hvwr, hcls, hrc, hvic]
    refine ⟨?_, fun _ => hv, ?_⟩
    · intro e he
      rw [hff] at he
      cases he
    · intro fl bk hpf2 hpbk2 hlt v hok
      rw [hpf] at hpf2
      cases hpf2
      rw [hpbk] at hpbk2
      cases hpbk2
      omega

/-- Witness for C4: an unparsable floor yields exactly the floor error;
the fully valid example yields success. -/
theorem validation_order_first_failure_witness :
    firstFailure exBadFloorBody = some "Invalid floor (1-9)" ∧
    validateFields exBadFloorBody = .error "Invalid floor (1-9)" ∧
    firstFailure exBody = none ∧
    ∃ v, validateFields exBody = .ok v :=
  ⟨by decide,
   (validation_order_first_failure exBadFloorBody).1 _ (by decide),
   by decide,
   (validation_order_first_failure exBody).2.1 (by decide)⟩

/-- Witness for C3 at the example submission (victory=true, floor=9,
bossKills=9: validation succeeds). -/
theorem victory_claim_rule_witness :
    ¬sanitizeName exBody.name = "" ∧
    ((exBody.victory = true →
      ((∃ v, validateFields exBody = .ok v) ↔ (9 : Int) = 9 ∧ 9 ≤ (9 : Int)))) :=
  ⟨by decide,
   (victory_claim_rule exStore 1000 "id1" exBody 9 500 60 600 9 0 300
     (by decide) (by decide) (by decide) (by decide) (by decide) (by decide)
     (by decide) (by decide) (by decide) (by decide)).1⟩

/-- C6.  Rate limiting over the per-identity counter state: a submission
arriving while the burst counter is live with two or more prior
submissions (post-increment count exceeding 2) is rejected with the
burst-limit error; a submission reaching the daily stage while the daily
counter is live at twenty or more (post-increment exceeding 20) is
rejected with the daily-limit error; and the first increment of an absent
or expired counter installs the 30-second (resp. 24-hour) expiry. -/
theorem rate_limit_thresholds (st : Store) (now : Nat) (newId : String)
    (body : Option Body) :
    (∀ v e, st.burst = some (v, e) → now < e → 2 ≤ v →
      (submitHandler st now newId body).1 =
        .err 429 "Too many submissions. Wait 30 seconds.") ∧
    (∀ v e, (incrCounter st.burst now 30).1 ≤ 2 →
      st.daily = some (v, e) → now < e → 20 ≤ v →
      (submitHandler st now newId body).1 =
        .err 429 "Daily submission limit reached.") ∧
    ((st.burst = none ∨ ∃ v e, st.burst = some (v, e) ∧ e ≤ now) →
      (submitHandler st now newId body).2.burst = some (1, now + 30)) ∧
    ((incrCounter st.burst now 30).1 ≤ 2 →
      (st.daily = none ∨ ∃ v e, st.daily = some (v, e) ∧ e ≤ now) →
      (submitHandler st now newId body).2.daily =
        some (1, now + 86400)) := by
  refine ⟨?_, ?_, ?_, ?_⟩
  · intro v e hb hlive hv
    have hbi : incrCounter st.burst now 30 = (v + 1, some (v + 1, e)) := by
      simp [incrCounter, hb, not_le.mpr hlive]
    simp only [submitHandler, hbi]
    rw [if_pos (by omega)]
  · intro v e hb2 hd hlive hv
    have hdi : incrCounter st.daily now 86400 = (v + 1, some (v + 1, e)) := by
      simp [incrCounter, hd, not_le.mpr hlive]
    simp only [submitHandler, hdi]
    rw [if_neg (by omega), if_pos (by omega)]
  · intro hfresh
    have hbi : incrCounter st.burst now 30 = (1, some (1, now + 30)) := by
      rcases hfresh with hb | ⟨v, e, hb, hexp⟩
      · simp [incrCounter, hb]
      · simp [incrCounter, hb, hexp]
    simp only [submitHandler, hbi]
    rw [if_neg (by omega)]
    repeat' split
    all_goals rfl
  · intro hb2 hfresh
    have hdi : incrCounter st.daily now 86400 = (1, some (1, now + 86400)) := by
      rcases hfresh with hd | ⟨v, e, hd, hexp⟩
      · simp [incrCounter, hd]
      · simp [incrCounter, hd, hexp]
    simp only [submitHandler, hdi]
    rw [if_neg (by omega), if_neg (by omega)]
    repeat' split
    all_goals rfl

/-- Witness for C6, applying the theorem at a live burst counter of 2, a
live daily counter of 20, and fresh counters respectively. -/
theorem rate_limit_thresholds_witness :
    burstStore.burst = some (2, 2000) ∧ (1000 : Nat) < 2000 ∧
    (submitHandler burstStore 1000 "id1" (some exBody)).1 =
      .err 429 "Too many submissions. Wait 30 seconds." ∧
    dailyStore.daily = some (20, 90000) ∧
    (incrCounter dailyStore.burst 1000 30).1 ≤ 2 ∧
    (submitHandler dailyStore 1000 "id1" (some exBody)).1 =
      .err 429 "Daily submission limit reached." ∧
    (submitHandler exStore 1000 "id1" (some exBody)).2.burst =
      some (1, 1030) ∧
    (submitHandler exStore 1000 "id1" (some exBody)).2.daily =
      some (1, 87400) :=
  ⟨by decide, by decide,
   (rate_limit_thresholds burstStore 1000 "id1" (some exBody)).1 2 2000
     (by decide) (by decide) (by decide),
   by decide, by decide,
   (rate_limit_thresholds dailyStore 1000 "id1" (some exBody)).2.1 20 90000
     (by decide) (by decide) (by decide) (by decide),
   (rate_limit_thresholds exStore 1000 "id1" (some exBody)).2.2.1
     (Or.inl (by decide)),
   (rate_limit_thresholds exStore 1000 "id1" (some exBody)).2.2.2
     (by decide) (Or.inl (by decide))⟩

/-- C7.  A submission request that ends in a 400 or 429 response writes
nothing: the run-record map, the global ranking and the player rankings
are unchanged; yet on every 400 response (which occurs only after both
rate checks passed) the identity's burst and daily counters hold their
post-increment values — they are not rolled back. -/
theorem rejected_requests_write_nothing (st : Store) (now : Nat)
    (newId : String) (body : Option Body) :
    (((submitHandler st now newId body).1.status = 400 ∨
      (submitHandler st now newId body).1.status = 429) →
      (submitHandler st now newId body).2.runs = st.runs ∧
      (submitHandler st now newId body).2.global = st.global ∧
      (submitHandler st now newId body).2.players = st.players) ∧
    ((submitHandler st now newId body).1.status = 400 →
      (submitHandler st now newId body).2.burst =
        (incrCounter st.burst now 30).2 ∧
      (submitHandler st now newId body).2.daily =
        (incrCounter st.daily now 86400).2) := by
  simp only [submitHandler]
  split
  · exact ⟨fun _ => ⟨rfl, rfl, rfl⟩, fun h => by simp [Resp.status] at h⟩
  · split
    · exact ⟨fun _ => ⟨rfl, rfl, rfl⟩, fun h => by simp [Resp.status] at h⟩
    · split
      · exact ⟨fun _ => ⟨rfl, rfl, rfl⟩, fun _ => ⟨rfl, rfl⟩⟩
      · split
        · exact ⟨fun _ => ⟨rfl, rfl, rfl⟩, fun _ => ⟨rfl, rfl⟩⟩
        · split
          · exact ⟨fun _ => ⟨rfl, rfl, rfl⟩, fun _ => ⟨rfl, rfl⟩⟩
          · exact ⟨fun h => by simp [Resp.status] at h,
                   fun h => by simp [Resp.status] at h⟩

/-- Witness for C7: a missing body (400 after rate consumption) and a
burst-limited request (429) leave the rankings untouched. -/
theorem rejected_requests_write_nothing_witness :
    (submitHandler exStore 1000 "id1" none).1.status = 400 ∧
    (submitHandler exStore 1000 "id1" none).2.runs = exStore.runs ∧
    (submitHandler exStore 1000 "id1" none).2.burst =
      (incrCounter exStore.burst 1000 30).2 ∧
    (submitHandler burstStore 1000 "id1" none).1.status = 429 ∧
    (submitHandler burstStore 1000 "id1" none).2.global =
      burstStore.global :=
  ⟨by decide,
   ((rejected_requests_write_nothing exStore 1000 "id1" none).1
     (Or.inl (by decide))).1,
   ((rejected_requests_write_nothing exStore 1000 "id1" none).2
     (by decide)).1,
   by decide,
   ((rejected_requests_write_nothing burstStore 1000 "id1" none).1
     (Or.inr (by decide))).2.1⟩

/-- C10.  A request rejected by the burst limit returns before the daily
counter is touched: the daily counter state is unchanged, so
burst-rejected submissions consume no daily quota. -/
theorem burst_reject_preserves_daily (st : Store) (now : Nat)
    (newId : String) (body : Option Body) (v e : Nat)
    (hb : st.burst = some (v, e)) (hlive : now < e) (hv : 2 ≤ v) :
    (submitHandler st now newId body).1 =
      .err 429 "Too many submissions. Wait 30 seconds." ∧
    (submitHandler st now newId body).2.daily = st.daily := by
  have hbi : incrCounter st.burst now 30 = (v + 1, some (v + 1, e)) := by
    simp [incrCounter, hb, not_le.mpr hlive]
  simp only [submitHandler, hbi]
  rw [if_pos (by omega)]
  exact ⟨rfl, rfl⟩

/-- Witness for C10 at a live burst counter of 2. -/
theorem burst_reject_preserves_daily_witness :
    burstStore.burst = some (2, 2000) ∧
    (submitHandler burstStore 1000 "id1" (some exBody)).2.daily =
      burstStore.daily :=
  ⟨by decide,
   (burst_reject_preserves_daily burstStore 1000 "id1" (some exBody) 2 2000
     (by decide) (by decide) (by decide)).2⟩

/-- Inversion of a successful validation: every check passed and the
validated values are the parsed ones. -/
theorem validateFields_ok_inv (b : Body) (v : Validated)
    (h : validateFields b = .ok v) :
    sanitizeName b.name ≠ "" ∧
    reqInt b.floor 1 9 "Invalid floor (1-9)" = .ok v.floor ∧
    reqInt b.kills 0 5000 "Invalid kills" = .ok v.kills ∧
    reqInt b.level 1 60 "Invalid level" = .ok v.level ∧
    reqFloatMin b.time 20 "Invalid time" = .ok v.time ∧
    reqInt b.bossKills 0 v.floor "Invalid boss kills" = .ok v.bossKills ∧
    reqIntMin b.bbEarned 0 "Invalid BB earned" = .ok v.bbEarned ∧
    reqIntMin b.viewers 0 "Invalid viewers" = .ok v.viewers ∧
    b.classId ∈ validClasses ∧ b.raceId ∈ validRaces := by
  simp only [validateFields, Except.bind] at h
  split at h
  · exact absurd h (by simp)
  rename_i hn
  split at h
  · exact absurd h (by simp)
  rename_i floor hf
  split at h
  · exact absurd h (by simp)
  rename_i kills hk
  split at h
  · exact absurd h (by simp)
  rename_i level hl
  split at h
  · exact absurd h (by simp)
  rename_i time ht
  split at h
  · exact absurd h (by simp)
  rename_i bossKills hbk
  split at h
  · exact absurd h (by simp)
  rename_i bbEarned hbb
  split at h
  · exact absurd h (by simp)
  rename_i viewers hvw
  split at h
  · exact absurd h (by simp)
  rename_i hcls
  split at h
  · exact absurd h (by simp)
  rename_i hrc
  split at h
  · exact absurd h (by simp)
  rename_i hcond
  cases h
  exact ⟨hn, hf, hk, hl, ht, hbk, hbb, hvw, not_not.mp hcls,
    not_not.mp hrc⟩

/-- C8 amended: a numeric field given as a string with no parsable
numeric prefix (`parseInt`/`parseFloat` yield `NaN`) is always rejected,
and an accepted submission's numeric values are exactly the parsed
values of its fields — a parse failure is never coerced to zero; but
strings with a numeric prefix (such as "5abc") are coerced to that
prefix's value rather than rejected. -/
theorem parse_failure_always_rejected (b : Body) :
    (parseIntJS b.floor = none → ∀ v, validateFields b ≠ .ok v) ∧
    (parseIntJS b.kills = none → ∀ v, validateFields b ≠ .ok v) ∧
    (parseIntJS b.level = none → ∀ v, validateFields b ≠ .ok v) ∧
    (parseFloatJS b.time = none → ∀ v, validateFields b ≠ .ok v) ∧
    (parseIntJS b.bossKills = none → ∀ v, validateFields b ≠ .ok v) ∧
    (parseIntJS b.bbEarned = none → ∀ v, validateFields b ≠ .ok v) ∧
    (parseIntJS b.viewers = none → ∀ v, validateFields b ≠ .ok v) ∧
    (∀ v, validateFields b = .ok v →
      parseIntJS b.floor = some v.floor ∧
      parseIntJS b.kills = some v.kills ∧
      parseIntJS b.level = some v.level ∧
      parseFloatJS b.time = some v.time ∧
      parseIntJS b.bossKills = some v.bossKills ∧
      parseIntJS b.bbEarned = some v.bbEarned ∧
      parseIntJS b.viewers = some v.viewers) := by
  refine ⟨?_, ?_, ?_, ?_, ?_, ?_, ?_, ?_⟩
  · intro hnone v hok
    have := (reqInt_ok (validateFields_ok_inv b v hok).2.1).1
    rw [hnone] at this
    cases this
  · intro hnone v hok
    have := (reqInt_ok (validateFields_ok_inv b v hok).2.2.1).1
    rw [hnone] at this
    cases this
  · intro hnone v hok
    have := (reqInt_ok (validateFields_ok_inv b v hok).2.2.2.1).1
    rw [hnone] at this
    cases this
  · intro hnone v hok
    have := (reqFloatMin_ok (validateFields_ok_inv b v hok).2.2.2.2.1).1
    rw [hnone] at this
    cases this
  · intro hnone v hok
    have := (reqInt_ok (validateFields_ok_inv b v hok).2.2.2.2.2.1).1
    rw [hnone] at this
    cases this
  · intro hnone v hok
    have := (reqIntMin_ok (validateFields_ok_inv b v hok).2.2.2.2.2.2.1).1
    rw [hnone] at this
    cases this
  · intro hnone v hok
    have :=
      (reqIntMin_ok (validateFields_ok_inv b v hok).2.2.2.2.2.2.2.1).1
    rw [hnone] at this
    cases this
  · intro v hok
    obtain ⟨-, hf, hk, hl, ht, hbk, hbb, hvw, -, -⟩ :=
      validateFields_ok_inv b v hok
    exact ⟨(reqInt_ok hf).1, (reqInt_ok hk).1, (reqInt_ok hl).1,
      (reqFloatMin_ok ht).1, (reqInt_ok hbk).1, (reqIntMin_ok hbb).1,
      (reqIntMin_ok hvw).1⟩

/-- Witness for C8's amended theorem: an unparsable floor is rejected,
and the accepted `c8Body` carries exactly its parsed floor value 5. -/
theorem parse_failure_always_rejected_witness :
    parseIntJS exBadFloorBody.floor = none ∧
    (∀ v, validateFields exBadFloorBody ≠ .ok v) ∧
    parseIntJS c8Body.floor = some c8Validated.floor :=
  ⟨by decide,
   (parse_failure_always_rejected exBadFloorBody).1 (by decide),
   ((parse_failure_always_rejected c8Body).2.2.2.2.2.2.2 c8Validated
     (by decide)).1⟩

/-- Counterexample to C8 as stated: the submission whose floor field is
the non-numeric string "5abc" is not rejected — validation accepts it,
with the floor coerced to the parsed prefix 5. -/
theorem numeric_string_coercion_counterexample :
    validateFields c8Body = .ok c8Validated ∧ c8Validated.floor = 5 :=
  ⟨by decide, by decide⟩

/-! ### Hydration-loop lemmas (C5, C9) -/

theorem hydrate_foldl (runs : List (String × RunRecord))
    (top : List (String × Int)) :
    ∀ acc : List Entry,
      List.foldl
        (fun acc p =>
          match runs.find? fun q => q.1 = p.1 with
          | some (_, r) =>
            if r.name ≠ "" then
              acc ++ [entryOfRecord (acc.length + 1) p.1 r]
            else acc
          | none => acc) acc top =
      acc ++ hydrateFrom runs top acc.length := by
  induction top with
  | nil => intro acc; simp [hydrateFrom]
  | cons p rest ih =>
    intro acc
    simp only [List.foldl_cons, hydrateFrom]
    rcases Option.eq_none_or_eq_some (runs.find? fun q => q.1 = p.1) with
      hfind | ⟨⟨m, r⟩, hfind⟩
    · rw [hfind]
      exact ih acc
    · rw [hfind]
      dsimp only
      by_cases hname : r.name ≠ ""
      · rw [if_pos hname, if_pos hname, ih]
        simp [List.append_assoc]
      · rw [if_neg hname, if_neg hname]
        exact ih acc

theorem hydrateEntries_eq_from (runs : List (String × RunRecord))
    (top : List (String × Int)) :
    hydrateEntries runs top = hydrateFrom runs top 0 := by
  have h := hydrate_foldl runs top []
  simpa [hydrateEntries] using h

theorem hydrateFrom_length_all_backed (runs : List (String × RunRecord)) :
    ∀ (top : List (String × Int)) (k : Nat),
      (∀ p ∈ top, backedB runs p.1 = true) →
      (hydrateFrom runs top k).length = top.length := by
  intro top
  induction top with
  | nil => intro k _; simp [hydrateFrom]
  | cons p rest ih =>
    intro k hb
    have hbp := hb p (List.mem_cons_self p rest)
    simp only [hydrateFrom]
    rcases Option.eq_none_or_eq_some (runs.find? fun q => q.1 = p.1) with
      hfind | ⟨⟨m, r⟩, hfind⟩
    · simp [backedB, hfind] at hbp
    · rw [hfind]
      dsimp only
      by_cases hname : r.name ≠ ""
      · rw [if_pos hname]
        simp only [List.length_cons]
        rw [ih (k + 1) fun q hq => hb q (List.mem_cons_of_mem _ hq)]
      · simp [backedB, hfind, hname] at hbp

theorem hydrateFrom_ranks (runs : List (String × RunRecord)) :
    ∀ (top : List (String × Int)) (k : Nat),
      (hydrateFrom runs top k).map (fun e => e.rank) =
        List.range' (k + 1) (hydrateFrom runs top k).length := by
  intro top
  induction top with
  | nil => intro k; simp [hydrateFrom]
  | cons p rest ih =>
    intro k
    simp only [hydrateFrom]
    rcases Option.eq_none_or_eq_some (runs.find? fun q => q.1 = p.1) with
      hfind | ⟨⟨m, r⟩, hfind⟩
    · rw [hfind]
      exact ih k
    · rw [hfind]
      dsimp only
      by_cases hname : r.name ≠ ""
      · rw [if_pos hname]
        simp only [List.map_cons, List.length_cons]
        rw [ih (k + 1)]
        simp [entryOfRecord, List.range']
      · rw [if_neg hname]
        exact ih k

theorem hydrateFrom_ids (runs : List (String × RunRecord)) :
    ∀ (top : List (String × Int)) (k : Nat),
      (hydrateFrom runs top k).map (fun e => e.id) =
        (top.filter fun p => backedB runs p.1).map (fun p => p.1) := by
  intro top
  induction top with
  | nil => intro k; simp [hydrateFrom]
  | cons p rest ih =>
    intro k
    simp only [hydrateFrom]
    rcases Option.eq_none_or_eq_some (runs.find? fun q => q.1 = p.1) with
      hfind | ⟨⟨m, r⟩, hfind⟩
    · have hbk : backedB runs p.1 = false := by simp [backedB, hfind]
      rw [hfind]
      simp only [List.filter_cons, hbk]
      simpa using ih k
    · rw [hfind]
      dsimp only
      by_cases hname : r.name ≠ ""
      · have hbk : backedB runs p.1 = true := by
          simp [backedB, hfind, hname]
        rw [if_pos hname]
        simp only [List.filter_cons, hbk, if_true, List.map_cons,
          cond_true]
        rw [ih (k + 1)]
        simp [entryOfRecord]
      · have hbk : backedB runs p.1 = false := by
          simp only [backedB, hfind, decide_eq_false_iff_not]
          simpa using hname
        rw [if_neg hname]
        simp only [List.filter_cons, hbk]
        simpa using ih k

theorem hydrateFrom_score_mem (runs : List (String × RunRecord)) :
    ∀ (top : List (String × Int)) (k : Nat) (e : Entry),
      (∀ p ∈ top, recordScoreOkB runs p = true) →
      e ∈ hydrateFrom runs top k → ∃ p ∈ top, e.score = p.2 := by
  intro top
  induction top with
  | nil => intro k e _ he; simp [hydrateFrom] at he
  | cons p rest ih =>
    intro k e hcons he
    simp only [hydrateFrom] at he
    rcases Option.eq_none_or_eq_some (runs.find? fun q => q.1 = p.1) with
      hfind | ⟨⟨m, r⟩, hfind⟩
    · rw [hfind] at he
      obtain ⟨q, hq, hs⟩ := ih k e
        (fun q hq => hcons q (List.mem_cons_of_mem _ hq)) he
      exact ⟨q, List.mem_cons_of_mem _ hq, hs⟩
    · rw [hfind] at he
      dsimp only at he
      by_cases hname : r.name ≠ ""
      · rw [if_pos hname] at he
        rcases List.mem_cons.mp he with hhead | htail
        · have hps := hcons p (List.mem_cons_self p rest)
          simp only [recordScoreOkB, hfind, decide_eq_true_eq] at hps
          refine ⟨p, List.mem_cons_self p rest, ?_⟩
          rw [hhead]
          simpa [entryOfRecord] using hps
        · obtain ⟨q, hq, hs⟩ := ih (k + 1) e
            (fun q hq => hcons q (List.mem_cons_of_mem _ hq)) htail
          exact ⟨q, List.mem_cons_of_mem _ hq, hs⟩
      · rw [if_neg hname] at he
        obtain ⟨q, hq, hs⟩ := ih k e
          (fun q hq => hcons q (List.mem_cons_of_mem _ hq)) he
        exact ⟨q, List.mem_cons_of_mem _ hq, hs⟩

theorem hydrateFrom_sorted (runs : List (String × RunRecord)) :
    ∀ (top : List (String × Int)) (k : Nat),
      top.Pairwise (fun a b => b.2 ≤ a.2) →
      (∀ p ∈ top, recordScoreOkB runs p = true) →
      (hydrateFrom runs top k).Pairwise
        (fun a b => b.score ≤ a.score) := by
  intro top
  induction top with
  | nil => intro k _ _; simp [hydrateFrom]
  | cons p rest ih =>
    intro k hsort hcons
    obtain ⟨hhead, htail⟩ := List.pairwise_cons.mp hsort
    have hconsRest : ∀ q ∈ rest, recordScoreOkB runs q = true :=
      fun q hq => hcons q (List.mem_cons_of_mem _ hq)
    simp only [hydrateFrom]
    rcases Option.eq_none_or_eq_some (runs.find? fun q => q.1 = p.1) with
      hfind | ⟨⟨m, r⟩, hfind⟩
    · rw [hfind]
      exact ih k htail hconsRest
    · rw [hfind]
      dsimp only
      by_cases hname : r.name ≠ ""
      · rw [if_pos hname]
        refine List.pairwise_cons.mpr ⟨?_, ih (k + 1) htail hconsRest⟩
        intro e he
        obtain ⟨q, hq, hs⟩ := hydrateFrom_score_mem runs rest (k + 1) e
          hconsRest he
        have hps := hcons p (List.mem_cons_self p rest)
        simp only [recordScoreOkB, hfind, decide_eq_true_eq] at hps
        rw [hs]
        simpa [entryOfRecord, hps] using hhead q hq
      · rw [if_neg hname]
        exact ih k htail hconsRest

theorem zrangeDescTake_take (g : List (String × Int)) (L : Int)
    (hL : 1 ≤ L) : zrangeDescTake g (L - 1) = g.take L.toNat := by
  simp only [zrangeDescTake]
  rw [if_neg (by omega), if_neg (by omega)]
  congr 1
  omega

/-- C5 amended.  For a leaderboard query with numeric limit L ≥ 1:
when every ranking member is backed, the entries array has length
min(L, 100, N); under the ranking invariants (descending order, record
scores matching ranking scores) entry scores are non-increasing; rank
fields are always the contiguous sequence 1..length; the returned ids
are exactly the backed members of the requested slice in order (members
with no backing record are skipped without error, later ranks
renumbered); and with the limit parameter absent the default is 50
(length min(50, 100, N)).  (As stated the claim also covered L = 0,
where the code falls back to the default instead — see the
counterexample.) -/
theorem leaderboard_top_entries (st : Store) (L : Int) (s : String)
    (pl : Option String) (hs : parseIntStr s = some L) (hL : 1 ≤ L) :
    ((∀ p ∈ st.global, backedB st.runs p.1 = true) →
      (leaderboardHandler st (some s) pl).entries.length =
        min (min L 100).toNat st.global.length) ∧
    (st.global.Pairwise (fun a b => b.2 ≤ a.2) →
      (∀ p ∈ st.global, recordScoreOkB st.runs p = true) →
      (leaderboardHandler st (some s) pl).entries.Pairwise
        (fun a b => b.score ≤ a.score)) ∧
    ((leaderboardHandler st (some s) pl).entries.map (fun e => e.rank) =
      List.range' 1 (leaderboardHandler st (some s) pl).entries.length) ∧
    ((leaderboardHandler st (some s) pl).entries.map (fun e => e.id) =
      ((st.global.take (min L 100).toNat).filter
        (fun p => backedB st.runs p.1)).map (fun p => p.1)) ∧
    (∀ (st2 : Store) (pl2 : Option String),
      (∀ p ∈ st2.global, backedB st2.runs p.1 = true) →
      (leaderboardHandler st2 none pl2).entries.length =
        min (min (50 : Int) 100).toNat st2.global.length) := by
  have hlim : (leaderboardHandler st (some s) pl).entries =
      hydrateFrom st.runs (st.global.take (min L 100).toNat) 0 := by
    simp only [leaderboardHandler, hs]
    rw [if_neg (by omega), zrangeDescTake_take st.global (min L 100)
      (by omega), hydrateEntries_eq_from]
  refine ⟨?_, ?_, ?_, ?_, ?_⟩
  · intro hback
    rw [hlim, hydrateFrom_length_all_backed st.runs _ 0
      (fun p hp => hback p (List.take_subset _ _ hp)), List.length_take]
  · intro hsort hcons
    rw [hlim]
    exact hydrateFrom_sorted st.runs _ 0
      (hsort.sublist (List.take_sublist _ _))
      (fun p hp => hcons p (List.take_subset _ _ hp))
  · rw [hlim]
    exact hydrateFrom_ranks st.runs _ 0
  · rw [hlim]
    exact hydrateFrom_ids st.runs _ 0
  · intro st2 pl2 hback
    have hlim2 : (leaderboardHandler st2 none pl2).entries =
        hydrateFrom st2.runs (st2.global.take (min (50 : Int) 100).toNat)
          0 := by
      simp only [leaderboardHandler]
      rw [zrangeDescTake_take st2.global (min (50 : Int) 100) (by omega),
        hydrateEntries_eq_from]
    rw [hlim2, hydrateFrom_length_all_backed st2.runs _ 0
      (fun p hp => hback p (List.take_subset _ _ hp)), List.length_take]

/-- Witness for C5 at a three-member fully backed store with limit 2. -/
theorem leaderboard_top_entries_witness :
    parseIntStr "2" = some 2 ∧
    (∀ p ∈ lbStore.global, backedB lbStore.runs p.1 = true) ∧
    (leaderboardHandler lbStore (some "2") none).entries.length =
      min (min (2 : Int) 100).toNat lbStore.global.length ∧
    ((leaderboardHandler lbStore (some "2") none).entries.map
      (fun e => e.rank) =
      List.range' 1
        (leaderboardHandler lbStore (some "2") none).entries.length) ∧
    (leaderboardHandler lbStore (some "2") none).entries.Pairwise
      (fun a b => b.score ≤ a.score) :=
  ⟨by decide, by decide,
   (leaderboard_top_entries lbStore 2 "2" none (by decide) (by decide)).1
     (by decide),
   (leaderboard_top_entries lbStore 2 "2" none (by decide)
     (by decide)).2.2.1,
   (leaderboard_top_entries lbStore 2 "2" none (by decide) (by decide)).2.1
     (by decide) (by decide)⟩

/-- Counterexample to C5 as stated: numeric limit L = 0 falls back to the
default 50 (JS `parseInt(limit) || 50` treats 0 as falsy), so against a
3-member backed store the query returns 3 entries, not min(0, 100, 3) = 0
as the claim requires. -/
theorem leaderboard_limit_zero_counterexample :
    parseIntStr "0" = some 0 ∧
    (∀ p ∈ lbStore.global, backedB lbStore.runs p.1 = true) ∧
    (leaderboardHandler lbStore (some "0") none).entries.length = 3 ∧
    min (min (0 : Int) 100).toNat lbStore.global.length = 0 :=
  ⟨by decide, by decide, by decide, by decide⟩

/-- C9.  For a leaderboard query naming a (nonempty) player: when the
player's ranking holds exactly the two runs of two submissions under the
same normalized name with distinct scores and both backed by records,
`playerBest` is the hydration of the higher-scoring run, and its rank
field is that run id's 1-based descending rank in the global ranking
(null when the id is absent, since `zrevrank` is then `none`); when the
player ranking is empty, or its best id has no backing record,
`playerBest` is null. -/
theorem player_best_lookup (st : Store) (lim : Option String) (p : String)
    (hp : p ≠ "") :
    (∀ (s1 : Int) (id1 : String) (s2 : Int) (id2 : String)
       (r1 r2 : RunRecord),
      getPlayer st.players (normalizeName p) =
        zaddDesc (zaddDesc [] s1 id1) s2 id2 →
      s1 ≠ s2 → id1 ≠ id2 →
      (st.runs.find? fun q => q.1 = id1) = some (id1, r1) →
      r1.name ≠ "" →
      (st.runs.find? fun q => q.1 = id2) = some (id2, r2) →
      r2.name ≠ "" →
      (leaderboardHandler st lim (some p)).playerBest =
        some (if s1 < s2 then
          { rank := (zrevrank st.global id2).map (· + 1), id := id2,
            name := r2.name, score := r2.score, floor := r2.floor,
            kills := r2.kills, level := r2.level, classId := r2.classId,
            victory := r2.victory }
        else
          { rank := (zrevrank st.global id1).map (· + 1), id := id1,
            name := r1.name, score := r1.score, floor := r1.floor,
            kills := r1.kills, level := r1.level, classId := r1.classId,
            victory := r1.victory })) ∧
    (getPlayer st.players (normalizeName p) = [] →
      (leaderboardHandler st lim (some p)).playerBest = none) ∧
    (∀ (bid : String) (s : Int) (rest : List (String × Int)),
      getPlayer st.players (normalizeName p) = (bid, s) :: rest →
      (st.runs.find? fun q => q.1 = bid) = none →
      (leaderboardHandler st lim (some p)).playerBest = none) := by
  have hpb : (leaderboardHandler st lim (some p)).playerBest =
      (match (getPlayer st.players (normalizeName p)).head? with
       | none => none
       | some (bestId, _) =>
         match st.runs.find? fun q => q.1 = bestId with
         | some (_, r) =>
           if r.name ≠ "" then
             some { rank := (zrevrank st.global bestId).map (· + 1),
                    id := bestId, name := r.name, score := r.score,
                    floor := r.floor, kills := r.kills, level := r.level,
                    classId := r.classId, victory := r.victory }
           else none
         | none => none) := by
    simp only [leaderboardHandler, Option.getD_some]
    rw [if_neg hp]
  refine ⟨?_, ?_, ?_⟩
  · intro s1 id1 s2 id2 r1 r2 hpl hs12 hid hfind1 hname1 hfind2 hname2
    have hlist : zaddDesc (zaddDesc [] s1 id1) s2 id2 =
        if s1 < s2 then [(id2, s2), (id1, s1)]
        else [(id1, s1), (id2, s2)] := by
      simp [zaddDesc, insertDesc, List.filter_cons, hid]
    rw [hpb, hpl, hlist]
    by_cases hcmp : s1 < s2
    · rw [if_pos hcmp, if_pos hcmp]
      dsimp only [List.head?]
      rw [hfind2]
      dsimp only
      rw [if_pos hname2]
    · rw [if_neg hcmp, if_neg hcmp]
      dsimp only [List.head?]
      rw [hfind1]
      dsimp only
      rw [if_pos hname1]
  · intro hempty
    rw [hpb, hempty]
    rfl
  · intro bid s rest hpl hnone
    rw [hpb, hpl]
    dsimp only [List.head?]
    rw [hnone]

/-- Witness for C9: two submissions by "bob" with scores 200 and 300;
playerBest is the 300-score run with global rank 1. -/
theorem player_best_lookup_witness :
    ("Bob" : String) ≠ "" ∧
    getPlayer lbStore.players (normalizeName "Bob") =
      zaddDesc (zaddDesc [] 200 "id2") 300 "id1" ∧
    (leaderboardHandler lbStore none (some "Bob")).playerBest =
      some (if (200 : Int) < 300 then
        { rank := (zrevrank lbStore.global "id1").map (· + 1),
          id := "id1", name := rec1.name, score := rec1.score,
          floor := rec1.floor, kills := rec1.kills, level := rec1.level,
          classId := rec1.classId, victory := rec1.victory }
      else
        { rank := (zrevrank lbStore.global "id2").map (· + 1),
          id := "id2", name := rec2.name, score := rec2.score,
          floor := rec2.floor, kills := rec2.kills, level := rec2.level,
          classId := rec2.classId, victory := rec2.victory }) ∧
    (leaderboardHandler lbStore none (some "Bob")).playerBest =
      some { rank := some 1, id := "id1", name := "Bob", score := 300,
             floor := 3, kills := 10, level := 5, classId := "pugilist",
             victory := false } :=
  ⟨by decide, by decide,
   (player_best_lookup lbStore none "Bob" (by decide)).1 200 "id2" 300
     "id1" rec2 rec1 (by decide) (by decide) (by decide) (by decide)
     (by decide) (by decide) (by decide),
   by decide⟩

end

end DCC
